import Mathlib

/-!
Shallow embedding of the OpenAkita setup-center process supervisor
(`apps/setup-center/src-tauri/src/main.rs`): PID record files, heartbeat
files, start locks, the port gate and the lifecycle commands
(`openakita_service_start` / `_stop` / `_status`, `startup_reconcile`),
together with proofs of the specified properties.

File-system reads and deletions are modelled as effective (a deleted file
is gone, a written file is present); timed polling loops are collapsed to
the environment flags that decide their outcome, keeping the branch
structure of the source.
-/

namespace OpenAkita

/-- On-disk PID record (struct `PidFileData` in the source). -/
structure PidFileData where
  pid : Nat
  started_by : String
  started_at : Nat
deriving Repr, DecidableEq

/-- Raw content of a `.pid` file: a structured JSON record, a bare legacy
integer, or unparseable bytes. -/
inductive PidDisk where
  | json (data : PidFileData)
  | legacy (pid : Nat)
  | corrupt
deriving Repr, DecidableEq

/-- `read_pid_file`: parse a PID file. A structured record with `pid > 0` is
returned as is; a bare legacy integer `p > 0` is normalized to
`{pid := p, started_by := "tauri", started_at := 0}`; a missing file,
unparseable content, or a zero pid yield `none`.  (A JSON record with
`pid = 0` falls through to the integer parse, which fails on JSON text.) -/
def read_pid_file : Option PidDisk → Option PidFileData
  | none => none
  | some (PidDisk.json d) => if d.pid > 0 then some d else none
  | some (PidDisk.legacy p) =>
      if p > 0 then some { pid := p, started_by := "tauri", started_at := 0 } else none
  | some PidDisk.corrupt => none

/-- Heartbeat record written by the supervised backend
(struct `HeartbeatData` in the source); `timestamp` is a float epoch time,
modelled as a rational. -/
structure HeartbeatData where
  pid : Nat
  timestamp : ℚ
  phase : String
  http_ready : Bool
deriving Repr, DecidableEq

/-- Raw content of a heartbeat file: parseable JSON or unparseable bytes. -/
inductive HbDisk where
  | json (data : HeartbeatData)
  | corrupt
deriving Repr, DecidableEq

/-- `read_heartbeat_file`: `none` for a missing or unparseable file. -/
def read_heartbeat_file : Option HbDisk → Option HeartbeatData
  | none => none
  | some (HbDisk.json h) => some h
  | some HbDisk.corrupt => none

/-- `is_heartbeat_stale`: `none` when no heartbeat can be read, otherwise
whether `now - timestamp > max_age_secs` (strict comparison, as in the
source: `Some(age > max_age_secs as f64)`). -/
def is_heartbeat_stale (hb : Option HbDisk) (now : Nat) (max_age_secs : Nat) : Option Bool :=
  match read_heartbeat_file hb with
  | none => none
  | some h => some (decide (((now : ℚ) - h.timestamp) > (max_age_secs : ℚ)))

/-- Body of `wait_for_port_free`: poll every 500 ms while the elapsed time is
still below the deadline.  `avail e` is the port's availability at elapsed
time `e` ms; the fuel bounds the recursion and is chosen large enough to
cover every poll before the deadline. -/
def waitPollLoop (avail : Nat → Bool) (timeoutMs : Nat) : Nat → Nat → Bool
  | 0, _ => false
  | Nat.succ fuel, elapsed =>
    if elapsed < timeoutMs then
      if avail elapsed then true
      else waitPollLoop avail timeoutMs fuel (elapsed + 500)
    else false

/-- `wait_for_port_free(port, timeout_ms)`: the deadline is checked before
every probe, so a zero timeout performs no probe at all. -/
def wait_for_port_free (avail : Nat → Bool) (timeoutMs : Nat) : Bool :=
  waitPollLoop avail timeoutMs (timeoutMs / 500 + 1) 0

/-- Claim C3 counterexample: with the heartbeat exactly `max_age_secs` old
(age `100 - 70 = 30` against threshold `30`), the code returns
`Some(false)`, not the `Some(true)` the claim demands for exact equality. -/
theorem is_heartbeat_stale_exact_age_counterexample :
    is_heartbeat_stale
        (some (HbDisk.json { pid := 1, timestamp := 70, phase := "running", http_ready := true }))
        100 30 = some false
      ∧ (100 : ℚ) - 70 = (30 : ℚ) := by
  constructor
  · simp only [is_heartbeat_stale, read_heartbeat_file, Option.some.injEq,
      decide_eq_false_iff_not, not_lt]
    norm_num
  · norm_num

/-- Claim C3 (amended): `is_heartbeat_stale` is `none` when the heartbeat
file is missing or unparseable, `some false` when the timestamp is at most
`max_age_secs` seconds old (including exact equality), and `some true` only
when the age strictly exceeds the threshold. -/
theorem is_heartbeat_stale_thresholds (h : HeartbeatData) (now maxAge : Nat) :
    is_heartbeat_stale none now maxAge = none
      ∧ is_heartbeat_stale (some HbDisk.corrupt) now maxAge = none
      ∧ (((now : ℚ) - h.timestamp ≤ (maxAge : ℚ)) →
          is_heartbeat_stale (some (HbDisk.json h)) now maxAge = some false)
      ∧ (((maxAge : ℚ) < (now : ℚ) - h.timestamp) →
          is_heartbeat_stale (some (HbDisk.json h)) now maxAge = some true) := by
  refine ⟨rfl, rfl, ?_, ?_⟩
  · intro hle
    simp only [is_heartbeat_stale, read_heartbeat_file, Option.some.injEq,
      decide_eq_false_iff_not, not_lt]
    exact hle
  · intro hgt
    simp only [is_heartbeat_stale, read_heartbeat_file, Option.some.injEq,
      decide_eq_true_eq]
    exact hgt

/-- Witness for `is_heartbeat_stale_thresholds` at a concrete heartbeat. -/
theorem is_heartbeat_stale_thresholds_witness :
    is_heartbeat_stale
        (some (HbDisk.json { pid := 2, timestamp := 95, phase := "running", http_ready := true }))
        100 30 = some false :=
  (is_heartbeat_stale_thresholds
      { pid := 2, timestamp := 95, phase := "running", http_ready := true } 100 30).2.2.1
    (by norm_num)

/-- Claim C10: a heartbeat timestamp in the future (forward clock skew)
yields a negative age, which is never greater than any `max_age_secs`, so
the heartbeat is reported fresh for every threshold. -/
theorem is_heartbeat_stale_future_timestamp (h : HeartbeatData) (now maxAge : Nat)
    (hf : (now : ℚ) < h.timestamp) :
    is_heartbeat_stale (some (HbDisk.json h)) now maxAge = some false := by
  have hage : (now : ℚ) - h.timestamp < 0 := by linarith
  have hma : (0 : ℚ) ≤ (maxAge : ℚ) := by positivity
  simp only [is_heartbeat_stale, read_heartbeat_file, Option.some.injEq,
    decide_eq_false_iff_not, not_lt]
  linarith

/-- Witness for `is_heartbeat_stale_future_timestamp`. -/
theorem is_heartbeat_stale_future_timestamp_witness :
    is_heartbeat_stale
        (some (HbDisk.json { pid := 3, timestamp := 500, phase := "starting", http_ready := false }))
        100 0 = some false :=
  is_heartbeat_stale_future_timestamp
    { pid := 3, timestamp := 500, phase := "starting", http_ready := false } 100 0
    (by norm_num)

/-- Claim C7: `read_pid_file` accepts the structured shape and the bare
legacy integer (normalized to `started_by = "tauri"`, `started_at = 0`),
and returns `none` for a missing file, unparseable content, or a zero pid. -/
theorem read_pid_file_shapes (d : PidFileData) (p : Nat) :
    read_pid_file none = none
      ∧ read_pid_file (some PidDisk.corrupt) = none
      ∧ (0 < d.pid → read_pid_file (some (PidDisk.json d)) = some d)
      ∧ (d.pid = 0 → read_pid_file (some (PidDisk.json d)) = none)
      ∧ (0 < p → read_pid_file (some (PidDisk.legacy p))
            = some { pid := p, started_by := "tauri", started_at := 0 })
      ∧ read_pid_file (some (PidDisk.legacy 0)) = none := by
  refine ⟨rfl, rfl, ?_, ?_, ?_, rfl⟩
  · intro hp
    simp [read_pid_file, hp]
  · intro hp
    simp [read_pid_file, hp]
  · intro hp
    simp [read_pid_file, hp]

/-- Witness for `read_pid_file_shapes`: a legacy bare integer is normalized. -/
theorem read_pid_file_shapes_witness :
    read_pid_file (some (PidDisk.legacy 41))
      = some { pid := 41, started_by := "tauri", started_at := 0 } :=
  (read_pid_file_shapes { pid := 1, started_by := "tauri", started_at := 0 } 41).2.2.2.2.1
    (by norm_num)

/-- If the port never becomes available, the poll loop reports failure. -/
theorem waitPollLoop_always_busy (avail : Nat → Bool) (timeoutMs : Nat)
    (hb : ∀ t, avail t = false) :
    ∀ fuel elapsed, waitPollLoop avail timeoutMs fuel elapsed = false := by
  intro fuel
  induction fuel with
  | zero => intro elapsed; rfl
  | succ fuel ih =>
    intro elapsed
    simp only [waitPollLoop, hb]
    split
    · exact ih (elapsed + 500)
    · rfl

/-- A successful poll loop exhibits a probe strictly before the deadline. -/
theorem waitPollLoop_success (avail : Nat → Bool) (timeoutMs : Nat) :
    ∀ fuel elapsed, waitPollLoop avail timeoutMs fuel elapsed = true →
      ∃ k, elapsed + 500 * k < timeoutMs ∧ avail (elapsed + 500 * k) = true := by
  intro fuel
  induction fuel with
  | zero => intro elapsed h; exact absurd h (by simp [waitPollLoop])
  | succ fuel ih =>
    intro elapsed h
    simp only [waitPollLoop] at h
    by_cases hd : elapsed < timeoutMs
    · rw [if_pos hd] at h
      by_cases ha : avail elapsed = true
      · exact ⟨0, by simpa using hd, by simpa using ha⟩
      · rw [if_neg (by simp [ha])] at h
        obtain ⟨k, hk1, hk2⟩ := ih (elapsed + 500) h
        refine ⟨k + 1, ?_, ?_⟩
        · rw [show elapsed + 500 * (k + 1) = elapsed + 500 + 500 * k by ring]
          exact hk1
        · rw [show elapsed + 500 * (k + 1) = elapsed + 500 + 500 * k by ring]
          exact hk2
    · rw [if_neg hd] at h
      exact absurd h (by simp)

/-- Claim C9: `wait_for_port_free` checks the deadline before every probe —
a zero timeout returns `false` for every availability history (even an
always-free port), and a `true` result exhibits a probe strictly before the
deadline that observed the port available. -/
theorem wait_for_port_free_deadline_first (avail : Nat → Bool) (timeoutMs : Nat) :
    wait_for_port_free avail 0 = false
      ∧ (wait_for_port_free avail timeoutMs = true →
          ∃ k, 500 * k < timeoutMs ∧ avail (500 * k) = true) := by
  constructor
  · rfl
  · intro h
    obtain ⟨k, hk1, hk2⟩ := waitPollLoop_success avail timeoutMs (timeoutMs / 500 + 1) 0 h
    exact ⟨k, by simpa using hk1, by simpa using hk2⟩

/-- Witness for `wait_for_port_free_deadline_first`: an always-free port with
a positive timeout succeeds, and the theorem recovers a timely probe. -/
theorem wait_for_port_free_deadline_first_witness :
    wait_for_port_free (fun _ => true) 0 = false
      ∧ ∃ k, 500 * k < 1000 ∧ (fun (_ : Nat) => true) (500 * k) = true :=
  ⟨(wait_for_port_free_deadline_first (fun _ => true) 0).1,
    (wait_for_port_free_deadline_first (fun _ => true) 1000).2 (by decide)⟩

/-- Static environment for the OS-dependent and timing-dependent queries the
supervisor makes.  `running` tables are threaded separately because
stops mutate them. -/
structure Env where
  /-- OS-reported process creation time (`get_process_create_time`); `none`
  when the metadata query fails. -/
  createTime : Nat → Option Nat
  /-- Identity-by-signature answer for a live pid: does its executable name /
  command line contain the service signature? -/
  isOpenakita : Nat → Bool
  /-- Supervisor's current clock, epoch seconds (`now_epoch_secs`). -/
  now : Nat
  /-- `read_workspace_api_port`: the `API_PORT` configured in the
  workspace's `.env`, if any. -/
  apiPort : String → Option Nat
  /-- Port availability: `portAvail port t` is whether binding `port`
  succeeds at elapsed time `t` ms into the current wait. -/
  portAvail : Nat → Nat → Bool
  /-- Whether `create_dir_all(run_dir())` succeeds. -/
  runDirOk : Bool
  /-- Whether `ensure_workspace_scaffold` succeeds. -/
  scaffoldOk : Bool
  /-- Whether the backend executable exists. -/
  backendExists : Bool
  /-- Whether opening the per-instance log file succeeds. -/
  logOpenOk : Bool
  /-- Spawn result: `some pid` on success, `none` when the OS refuses. -/
  spawnPid : Option Nat
  /-- Whether the freshly spawned child is still alive at the 500 ms
  grace-period re-check. -/
  spawnSurvives : Bool
  /-- Whether writing the PID file after spawn succeeds. -/
  pidWriteOk : Bool
  /-- Whether the HTTP `POST /api/shutdown` request is accepted for the
  given pid's service. -/
  shutdownApiOk : Nat → Bool
  /-- Whether the process exits within the 5 s graceful window after an
  accepted shutdown request. -/
  gracefulExits : Nat → Bool
  /-- Whether the forced-kill syscall (`kill_pid`) itself succeeds. -/
  killOk : Nat → Bool
  /-- Whether the process is gone at the 2 s post-kill confirmation. -/
  deadAfterKill : Nat → Bool

/-- `is_pid_running`: pid 0 is never running (no OS query); otherwise
consult the OS process table. -/
def is_pid_running (running : Nat → Bool) (pid : Nat) : Bool :=
  if pid = 0 then false else running pid

/-- `is_openakita_process`: `false` for pid 0 or a dead pid, otherwise the
identity-by-signature check (executable name / command line contains the
service signature). -/
def is_openakita_process (env : Env) (running : Nat → Bool) (pid : Nat) : Bool :=
  if pid = 0 then false
  else if is_pid_running running pid then env.isOpenakita pid
  else false

/-- `is_pid_file_valid`: a record is valid when its pid is alive and either
the OS creation time matches `started_at` within 5 seconds, or the
identity-by-signature fallback matches.  `started_at = 0` (legacy) and a
failed creation-time query both degrade to the identity check. -/
def is_pid_file_valid (env : Env) (running : Nat → Bool) (data : PidFileData) : Bool :=
  if !(is_pid_running running data.pid) then false
  else if data.started_at = 0 then is_openakita_process env running data.pid
  else
    match env.createTime data.pid with
    | some actual =>
        let diff := if data.started_at > actual then data.started_at - actual
                    else actual - data.started_at
        if diff > 5 then is_openakita_process env running data.pid else true
    | none => is_openakita_process env running data.pid

/-- Claim C4: for a record with `started_at > 0` whose pid is alive, a
creation-time mismatch beyond 5 seconds makes validity coincide with the
identity-by-signature check, and an unavailable creation time falls back to
the same identity check (never "assume valid"). -/
theorem is_pid_file_valid_fallback (env : Env) (running : Nat → Bool) (data : PidFileData)
    (hs : 0 < data.started_at) (hr : is_pid_running running data.pid = true) :
    (∀ t, env.createTime data.pid = some t →
        (if data.started_at > t then data.started_at - t else t - data.started_at) > 5 →
        is_pid_file_valid env running data = is_openakita_process env running data.pid)
      ∧ (env.createTime data.pid = none →
        is_pid_file_valid env running data = is_openakita_process env running data.pid) := by
  constructor
  · intro t ht hdiff
    simp only [is_pid_file_valid, hr, Bool.not_true, Bool.false_eq_true, if_false,
      Nat.pos_iff_ne_zero.mp hs, if_neg (Nat.pos_iff_ne_zero.mp hs), ht]
    simp only [hdiff, if_true]
  · intro ht
    simp only [is_pid_file_valid, hr, Bool.not_true, Bool.false_eq_true, if_false,
      if_neg (Nat.pos_iff_ne_zero.mp hs), ht]

/-- Witness for `is_pid_file_valid_fallback`: pid 9 is alive but was created
at time 50 while the record says 100; the signature check fails, so the
record is invalid. -/
theorem is_pid_file_valid_fallback_witness :
    is_pid_file_valid
        { createTime := fun _ => some 50, isOpenakita := fun _ => false, now := 1000,
          apiPort := fun _ => none, portAvail := fun _ _ => true, runDirOk := true,
          scaffoldOk := true, backendExists := true, logOpenOk := true,
          spawnPid := none, spawnSurvives := true, pidWriteOk := true,
          shutdownApiOk := fun _ => false, gracefulExits := fun _ => false,
          killOk := fun _ => true, deadAfterKill := fun _ => true }
        (fun p => decide (p = 9))
        { pid := 9, started_by := "tauri", started_at := 100 }
      = is_openakita_process
          { createTime := fun _ => some 50, isOpenakita := fun _ => false, now := 1000,
            apiPort := fun _ => none, portAvail := fun _ _ => true, runDirOk := true,
            scaffoldOk := true, backendExists := true, logOpenOk := true,
            spawnPid := none, spawnSurvives := true, pidWriteOk := true,
            shutdownApiOk := fun _ => false, gracefulExits := fun _ => false,
            killOk := fun _ => true, deadAfterKill := fun _ => true }
          (fun p => decide (p = 9)) 9 :=
  (is_pid_file_valid_fallback _ _ _ (by norm_num) (by decide)).1 50 rfl (by norm_num)

/-- Look up the content of the file keyed `k` in an association list of
files. -/
def fsLookup {α : Type} : List (String × α) → String → Option α
  | [], _ => none
  | e :: rest, k => if e.1 = k then some e.2 else fsLookup rest k

/-- Delete the file keyed `k`. -/
def fsErase {α : Type} (l : List (String × α)) (k : String) : List (String × α) :=
  l.filter (fun e => decide (e.1 ≠ k))

/-- Write (create or overwrite) the file keyed `k`. -/
def fsInsert {α : Type} (l : List (String × α)) (k : String) (v : α) : List (String × α) :=
  (k, v) :: fsErase l k

theorem fsErase_cons {α : Type} (e : String × α) (rest : List (String × α)) (k : String) :
    fsErase (e :: rest) k = if e.1 = k then fsErase rest k else e :: fsErase rest k := by
  simp only [fsErase, List.filter_cons]
  by_cases h : e.1 = k
  · simp [h]
  · simp [h]

theorem fsLookup_fsErase_self {α : Type} (l : List (String × α)) (k : String) :
    fsLookup (fsErase l k) k = none := by
  induction l with
  | nil => rfl
  | cons e rest ih =>
    rw [fsErase_cons]
    by_cases h : e.1 = k
    · simpa [h] using ih
    · simp [fsLookup, h, ih]

theorem fsLookup_fsErase_ne {α : Type} (l : List (String × α)) (k k2 : String) (h : k2 ≠ k) :
    fsLookup (fsErase l k) k2 = fsLookup l k2 := by
  induction l with
  | nil => rfl
  | cons e rest ih =>
    rw [fsErase_cons]
    by_cases he : e.1 = k
    · rw [if_pos he, ih]
      have hne : ¬ e.1 = k2 := by rw [he]; exact fun hh => h hh.symm
      simp only [fsLookup, if_neg hne]
    · rw [if_neg he]
      simp only [fsLookup]
      by_cases he2 : e.1 = k2
      · rw [if_pos he2, if_pos he2]
      · rw [if_neg he2, if_neg he2, ih]

theorem fsLookup_mem {α : Type} {l : List (String × α)} {k : String} {v : α}
    (h : fsLookup l k = some v) : (k, v) ∈ l := by
  induction l with
  | nil => cases h
  | cons e rest ih =>
    simp only [fsLookup] at h
    by_cases he : e.1 = k
    · rw [if_pos he] at h
      have hv : e.2 = v := by injection h
      have : e = (k, v) := by
        cases e
        simp only [Prod.mk.injEq]
        exact ⟨he, hv⟩
      rw [← this]
      exact List.mem_cons_self e rest
    · rw [if_neg he] at h
      exact List.mem_cons_of_mem _ (ih h)

/-- In-memory handle for a child spawned by this controller process
(struct `ManagedProcess` in the source; the `Child` handle itself is
represented by its pid, and `try_wait` is modelled as a liveness query on
the process table). -/
structure ManagedProcess where
  workspace_id : String
  pid : Nat
  started_at : Nat
deriving Repr, DecidableEq

/-- The supervisor-visible world: the run directory (`.pid` and `.lock`
files), the per-workspace heartbeat files, the OS process table and the
`MANAGED_CHILD` slot. -/
structure World where
  pidFiles : List (String × PidDisk)
  heartbeats : List (String × HbDisk)
  locks : List String
  running : Nat → Bool
  managed : Option ManagedProcess

/-- Mark a pid dead in the process table. -/
def setDead (running : Nat → Bool) (pid : Nat) : Nat → Bool :=
  fun p => if p = pid then false else running p

/-- `kill_pid`: pid 0 is a no-op success; otherwise the forced-termination
syscall either succeeds or reports an error. -/
def kill_pid (env : Env) (pid : Nat) : Except String Unit :=
  if pid = 0 then Except.ok ()
  else if env.killOk pid then Except.ok ()
  else Except.error ("kill failed for pid " ++ toString pid)

/-- `graceful_stop_pid`: no-op success for a dead pid; otherwise try the
HTTP shutdown and wait up to 5 s for exit, then escalate to a forced kill
and wait up to 2 s; if the process is still alive after both, return an
explicit error and leave the process table unchanged.  Returns the result
together with the process table after the attempt. -/
def graceful_stop_pid (env : Env) (running : Nat → Bool) (pid : Nat) :
    Except String Unit × (Nat → Bool) :=
  if !(is_pid_running running pid) then (Except.ok (), running)
  else if env.shutdownApiOk pid && env.gracefulExits pid then
    (Except.ok (), setDead running pid)
  else
    match kill_pid env pid with
    | Except.error e => (Except.error e, running)
    | Except.ok _ =>
      if env.deadAfterKill pid then (Except.ok (), setDead running pid)
      else (Except.error ("pid " ++ toString pid ++ " still running after graceful + forced stop"),
            running)

theorem graceful_stop_pid_error_running (env : Env) (r : Nat → Bool) (pid : Nat)
    (e : String) (r1 : Nat → Bool) (h : graceful_stop_pid env r pid = (Except.error e, r1)) :
    r1 = r := by
  unfold graceful_stop_pid at h
  split at h
  · exact absurd (congrArg Prod.fst h) (by simp)
  · split at h
    · exact absurd (congrArg Prod.fst h) (by simp)
    · split at h
      · exact (congrArg Prod.snd h).symm
      · split at h
        · exact absurd (congrArg Prod.fst h) (by simp)
        · exact (congrArg Prod.snd h).symm

/-- `service_pid_file` name inside the run directory. -/
def service_pid_file (workspace_id : String) : String :=
  "openakita-" ++ workspace_id ++ ".pid"

/-- The status record returned to the caller (struct `ServiceStatus`). -/
structure ServiceStatus where
  running : Bool
  pid : Option Nat
  pid_file : String
  heartbeat_phase : String
  heartbeat_stale : Option Bool
  heartbeat_age_secs : Option ℚ
deriving Repr, DecidableEq

/-- `build_service_status`: fill in the heartbeat fields from the heartbeat
file (30 s short staleness threshold), or leave them empty when no
heartbeat can be read. -/
def build_service_status (env : Env) (heartbeats : List (String × HbDisk))
    (workspace_id : String) (running : Bool) (pid : Option Nat) (pid_file_str : String) :
    ServiceStatus :=
  match read_heartbeat_file (fsLookup heartbeats workspace_id) with
  | some hb =>
      { running := running, pid := pid, pid_file := pid_file_str,
        heartbeat_phase := hb.phase,
        heartbeat_stale := some (decide (((env.now : ℚ) - hb.timestamp) > 30)),
        heartbeat_age_secs := some ((env.now : ℚ) - hb.timestamp) }
  | none =>
      { running := running, pid := pid, pid_file := pid_file_str,
        heartbeat_phase := "", heartbeat_stale := none, heartbeat_age_secs := none }

theorem build_service_status_running (env : Env) (hbs : List (String × HbDisk))
    (ws : String) (b : Bool) (p : Option Nat) (pf : String) :
    (build_service_status env hbs ws b p pf).running = b := by
  unfold build_service_status
  split <;> rfl

/-- PID-file fallback of `openakita_service_status`: a record failing
validation is deleted together with its heartbeat before reporting
not-running. -/
def statusViaPidFile (env : Env) (w : World) (ws : String) (pf : String) :
    ServiceStatus × World :=
  match read_pid_file (fsLookup w.pidFiles ws) with
  | some data =>
    if is_pid_file_valid env w.running data then
      (build_service_status env w.heartbeats ws true (some data.pid) pf, w)
    else
      let w1 : World := { w with pidFiles := fsErase w.pidFiles ws,
                                 heartbeats := fsErase w.heartbeats ws }
      (build_service_status env w1.heartbeats ws false none pf, w1)
  | none => (build_service_status env w.heartbeats ws false none pf, w)

/-- `openakita_service_status`: prefer the managed-child handle (precise
exit check); otherwise fall back to the PID record plus validation. -/
def openakita_service_status (env : Env) (w : World) (ws : String) :
    ServiceStatus × World :=
  let pf := service_pid_file ws
  match w.managed with
  | some mp =>
    if mp.workspace_id = ws then
      if is_pid_running w.running mp.pid then
        (build_service_status env w.heartbeats ws true (some mp.pid) pf, w)
      else
        let w1 : World := { w with managed := none,
                                   pidFiles := fsErase w.pidFiles ws,
                                   heartbeats := fsErase w.heartbeats ws }
        (build_service_status env w1.heartbeats ws false none pf, w1)
    else statusViaPidFile env w ws pf
  | none => statusViaPidFile env w ws pf

theorem status_not_running_of_no_record (env : Env) (w : World) (ws : String)
    (hm : ∀ mp, w.managed = some mp → mp.workspace_id ≠ ws)
    (hr : read_pid_file (fsLookup w.pidFiles ws) = none) :
    (openakita_service_status env w ws).1.running = false := by
  unfold openakita_service_status
  cases hw : w.managed with
  | none =>
      simp only [statusViaPidFile, hr]
      exact build_service_status_running ..
  | some mp =>
      have : mp.workspace_id ≠ ws := hm mp hw
      simp only [this, if_false, statusViaPidFile, hr]
      exact build_service_status_running ..

theorem status_running_of_valid_record (env : Env) (w : World) (ws : String)
    (data : PidFileData)
    (hm : ∀ mp, w.managed = some mp → mp.workspace_id ≠ ws)
    (hr : read_pid_file (fsLookup w.pidFiles ws) = some data)
    (hv : is_pid_file_valid env w.running data = true) :
    (openakita_service_status env w ws).1.running = true := by
  unfold openakita_service_status
  cases hw : w.managed with
  | none =>
      simp only [statusViaPidFile, hr, hv, if_true]
      exact build_service_status_running ..
  | some mp =>
      have : mp.workspace_id ≠ ws := hm mp hw
      simp only [this, if_false, statusViaPidFile, hr, hv, if_true]
      exact build_service_status_running ..

/-- PID-file fallback of `openakita_service_stop`: a failed
graceful-plus-forced stop is propagated as an error and the PID record and
heartbeat are left in place. -/
def stopViaPidFile (env : Env) (w : World) (ws : String) (pf : String) :
    Except String ServiceStatus × World :=
  match read_pid_file (fsLookup w.pidFiles ws) with
  | some data =>
    match graceful_stop_pid env w.running data.pid with
    | (Except.error e, running1) =>
        (Except.error ("failed to stop service: " ++ e), { w with running := running1 })
    | (Except.ok _, running1) =>
        let w1 : World := { w with running := running1,
                                   pidFiles := fsErase w.pidFiles ws,
                                   heartbeats := fsErase w.heartbeats ws }
        (Except.ok (build_service_status env w1.heartbeats ws false none pf), w1)
  | none =>
      let w1 : World := { w with pidFiles := fsErase w.pidFiles ws,
                                 heartbeats := fsErase w.heartbeats ws }
      (Except.ok (build_service_status env w1.heartbeats ws false none pf), w1)

/-- `openakita_service_stop`: take the managed handle if it matches (its
owned child is force-killed and reaped after the graceful attempt, so this
path always ends stopped); otherwise stop via the PID record, propagating
a stop failure explicitly. -/
def openakita_service_stop (env : Env) (w : World) (ws : String) :
    Except String ServiceStatus × World :=
  let pf := service_pid_file ws
  match w.managed with
  | some mp =>
    if mp.workspace_id = ws then
      let w0 : World := { w with managed := none }
      let running1 := (graceful_stop_pid env w0.running mp.pid).2
      let running2 := if is_pid_running running1 mp.pid then setDead running1 mp.pid else running1
      let w1 : World := { w0 with running := running2,
                                  pidFiles := fsErase w0.pidFiles ws,
                                  heartbeats := fsErase w0.heartbeats ws }
      (Except.ok (build_service_status env w1.heartbeats ws false none pf), w1)
    else stopViaPidFile env w ws pf
  | none => stopViaPidFile env w ws pf

/-- Claim C2: a successful Stop leaves no PID record and no heartbeat file
and a subsequent Status reports not-running; a failed Stop (graceful and
forced both failed) returns an error, leaves the PID record, the managed
slot and the process table untouched, and a subsequent Status still
reports running for a record that validates. -/
theorem stop_terminal_state (env : Env) (w : World) (ws : String) :
    ((∃ st, (openakita_service_stop env w ws).1 = Except.ok st) →
        fsLookup (openakita_service_stop env w ws).2.pidFiles ws = none
        ∧ fsLookup (openakita_service_stop env w ws).2.heartbeats ws = none
        ∧ (openakita_service_status env (openakita_service_stop env w ws).2 ws).1.running = false)
    ∧ ((∃ e, (openakita_service_stop env w ws).1 = Except.error e) →
        (openakita_service_stop env w ws).2.pidFiles = w.pidFiles
        ∧ (openakita_service_stop env w ws).2.managed = w.managed
        ∧ (openakita_service_stop env w ws).2.running = w.running
        ∧ (∀ data, read_pid_file (fsLookup w.pidFiles ws) = some data →
            is_pid_file_valid env w.running data = true →
            (openakita_service_status env (openakita_service_stop env w ws).2 ws).1.running
              = true)) := by
  have herase : ∀ (w1 : World), w1.pidFiles = fsErase w.pidFiles ws →
      read_pid_file (fsLookup w1.pidFiles ws) = none := by
    intro w1 h
    rw [h, fsLookup_fsErase_self]
    rfl
  unfold openakita_service_stop
  cases hw : w.managed with
  | some mp =>
    by_cases hid : mp.workspace_id = ws
    · simp only [hid, if_true]
      constructor
      · intro _
        refine ⟨fsLookup_fsErase_self .., fsLookup_fsErase_self .., ?_⟩
        exact status_not_running_of_no_record env _ ws (fun mp2 h => by cases h)
          (by rw [fsLookup_fsErase_self]; rfl)
      · rintro ⟨e, he⟩
        cases he
    · simp only [hid, if_false]
      constructor
      · rintro ⟨st, hst⟩
        unfold stopViaPidFile at hst ⊢
        cases hr : read_pid_file (fsLookup w.pidFiles ws) with
        | none =>
            simp only [hr]
            refine ⟨fsLookup_fsErase_self .., fsLookup_fsErase_self .., ?_⟩
            exact status_not_running_of_no_record env _ ws
              (fun mp2 h => by simp only at h; rw [hw] at h; cases h; exact hid)
              (by rw [fsLookup_fsErase_self]; rfl)
        | some data =>
            simp only [hr] at hst ⊢
            rcases hgs : graceful_stop_pid env w.running data.pid with ⟨res, running1⟩
            cases res with
            | error e => rw [hgs] at hst; cases hst
            | ok u =>
                cases u
                simp only [hgs]
                refine ⟨fsLookup_fsErase_self .., fsLookup_fsErase_self .., ?_⟩
                exact status_not_running_of_no_record env _ ws
                  (fun mp2 h => by simp only at h; rw [hw] at h; cases h; exact hid)
                  (by rw [fsLookup_fsErase_self]; rfl)
      · rintro ⟨e, he⟩
        unfold stopViaPidFile at he ⊢
        cases hr : read_pid_file (fsLookup w.pidFiles ws) with
        | none => simp only [hr] at he; cases he
        | some data =>
            simp only [hr] at he ⊢
            rcases hgs : graceful_stop_pid env w.running data.pid with ⟨res, running1⟩
            cases res with
            | ok u => rw [hgs] at he; cases he
            | error e1 =>
                have hrun : running1 = w.running :=
                  graceful_stop_pid_error_running env w.running data.pid e1 running1 hgs
                simp only [hgs, hrun]
                refine ⟨by simp, by simp [hw], by simp, ?_⟩
                intro data2 hr2 hv2
                have hdd : data = data2 := by injection hr2
                subst hdd
                refine status_running_of_valid_record env _ ws data ?_ hr hv2
                intro mp2 hmp2
                have h2 : w.managed = some mp2 := hmp2
                rw [hw] at h2
                injection h2 with h3
                subst h3
                exact hid
  | none =>
    constructor
    · rintro ⟨st, hst⟩
      unfold stopViaPidFile at hst ⊢
      cases hr : read_pid_file (fsLookup w.pidFiles ws) with
      | none =>
          simp only [hr]
          refine ⟨fsLookup_fsErase_self .., fsLookup_fsErase_self .., ?_⟩
          exact status_not_running_of_no_record env _ ws
            (fun mp2 h => by simp only at h; rw [hw] at h; cases h)
            (by rw [fsLookup_fsErase_self]; rfl)
      | some data =>
          simp only [hr] at hst ⊢
          rcases hgs : graceful_stop_pid env w.running data.pid with ⟨res, running1⟩
          cases res with
          | error e => rw [hgs] at hst; cases hst
          | ok u =>
              cases u
              simp only [hgs]
              refine ⟨fsLookup_fsErase_self .., fsLookup_fsErase_self .., ?_⟩
              exact status_not_running_of_no_record env _ ws
                (fun mp2 h => by simp only at h; rw [hw] at h; cases h)
                (by rw [fsLookup_fsErase_self]; rfl)
    · rintro ⟨e, he⟩
      unfold stopViaPidFile at he ⊢
      cases hr : read_pid_file (fsLookup w.pidFiles ws) with
      | none => simp only [hr] at he; cases he
      | some data =>
          simp only [hr] at he ⊢
          rcases hgs : graceful_stop_pid env w.running data.pid with ⟨res, running1⟩
          cases res with
          | ok u => rw [hgs] at he; cases he
          | error e1 =>
              have hrun : running1 = w.running :=
                graceful_stop_pid_error_running env w.running data.pid e1 running1 hgs
              simp only [hgs, hrun]
              refine ⟨by simp, by simp [hw], by simp, ?_⟩
              intro data2 hr2 hv2
              have hdd : data = data2 := by injection hr2
              subst hdd
              refine status_running_of_valid_record env _ ws data ?_ hr hv2
              intro mp2 hmp2
              have h2 : w.managed = some mp2 := hmp2
              rw [hw] at h2
              cases h2

/-- Environment for the `stop_terminal_state` witness: pid 7 is alive, is
the service (signature matches), but neither the HTTP shutdown nor the
forced kill brings it down. -/
def envStopFail : Env :=
  { createTime := fun _ => none, isOpenakita := fun _ => true, now := 1000,
    apiPort := fun _ => none, portAvail := fun _ _ => true, runDirOk := true,
    scaffoldOk := true, backendExists := true, logOpenOk := true,
    spawnPid := none, spawnSurvives := true, pidWriteOk := true,
    shutdownApiOk := fun _ => false, gracefulExits := fun _ => false,
    killOk := fun _ => true, deadAfterKill := fun _ => false }

/-- World for the `stop_terminal_state` witness: one legacy PID record for
workspace `w1` pointing at the live pid 7, no managed handle. -/
def wStopFail : World :=
  { pidFiles := [("w1", PidDisk.json { pid := 7, started_by := "tauri", started_at := 0 })],
    heartbeats := [], locks := [], running := fun p => decide (p = 7), managed := none }

/-- Witness for `stop_terminal_state`: the failed stop leaves the PID record
in place and a subsequent status still reports running. -/
theorem stop_terminal_state_witness :
    (openakita_service_stop envStopFail wStopFail "w1").2.pidFiles = wStopFail.pidFiles
      ∧ (openakita_service_status envStopFail
          (openakita_service_stop envStopFail wStopFail "w1").2 "w1").1.running = true :=
  ⟨((stop_terminal_state envStopFail wStopFail "w1").2 ⟨_, rfl⟩).1,
   ((stop_terminal_state envStopFail wStopFail "w1").2 ⟨_, rfl⟩).2.2.2
     { pid := 7, started_by := "tauri", started_at := 0 } rfl rfl⟩

/-- Distinct error exits of `openakita_service_start`, each carrying the
data interpolated into the source's error message. -/
inductive StartError where
  | createRunDirFailed
  | startInProgress
  | scaffoldFailed
  | portBusy (port : Nat)
  | backendMissing
  | logOpenFailed
  | spawnFailed
  | pidWriteFailed
  | immediateExit (pid : Nat)
deriving Repr, DecidableEq

/-- The user-facing message of each start error (the source's format
strings, with the interpolated values spliced in). -/
def startErrorMessage : StartError → String
  | StartError.createRunDirFailed => "create run dir failed"
  | StartError.startInProgress => "另一个启动操作正在进行中，请稍候"
  | StartError.scaffoldFailed => "workspace scaffold failed"
  | StartError.portBusy port =>
      "端口 " ++ (toString port ++
        (" 已被占用，无法启动后端服务。可能原因：上次关闭后端口尚未释放、或有其他程序占用该端口。请稍后重试，或检查是否有其他程序占用端口 " ++
          (toString port ++ "。")))
  | StartError.backendMissing => "后端可执行文件不存在"
  | StartError.logOpenFailed => "open log failed"
  | StartError.spawnFailed => "spawn openakita serve failed"
  | StartError.pidWriteFailed => "write pid file failed"
  | StartError.immediateExit pid =>
      "openakita serve 似乎启动后立即退出（PID=" ++ toString pid ++ "）"

/-- Result of one `openakita_service_start` call, instrumented with the
number of spawn syscalls, whether the port gate was consulted, the number
of times `release_start_lock` ran for this workspace, and the number of
PID-file write attempts. -/
structure StartOutcome where
  result : Except StartError ServiceStatus
  world : World
  spawns : Nat
  portGateReached : Bool
  lockReleases : Nat
  pidWrites : Nat

/-- `try_acquire_start_lock`: atomic create-if-absent of the lock file. -/
def try_acquire_start_lock (w : World) (ws : String) : Bool × World :=
  if ws ∈ w.locks then (false, w) else (true, { w with locks := ws :: w.locks })

/-- `release_start_lock`: best-effort removal of the lock file. -/
def release_start_lock (w : World) (ws : String) : World :=
  { w with locks := w.locks.filter (fun k => decide (k ≠ ws)) }

theorem release_start_lock_not_mem (w : World) (ws : String) :
    ¬ ws ∈ (release_start_lock w ws).locks := by
  intro h
  have := (List.mem_filter.mp h).2
  simp at this

/-- `check_port_available`: try to bind the port right now. -/
def check_port_available (env : Env) (port : Nat) : Bool :=
  env.portAvail port 0

/-- Process table after a spawn / after the 500 ms grace window: the child
pid's liveness is set, everything else unchanged. -/
def setGrace (running : Nat → Bool) (pid : Nat) (alive : Bool) : Nat → Bool :=
  fun p => if p = pid then alive else running p

/-- Spawn phase of `openakita_service_start` (everything past the port
gate, still under the start lock): check the backend executable, open the
log, spawn, write the PID record, store the managed handle, then re-check
liveness after a 500 ms grace period; the scope-bound guard releases the
lock on every exit. -/
def startSpawn (env : Env) (w : World) (ws : String) (pf : String) : StartOutcome :=
  if env.backendExists = false then
    { result := Except.error StartError.backendMissing, world := release_start_lock w ws,
      spawns := 0, portGateReached := true, lockReleases := 1, pidWrites := 0 }
  else if env.logOpenOk = false then
    { result := Except.error StartError.logOpenFailed, world := release_start_lock w ws,
      spawns := 0, portGateReached := true, lockReleases := 1, pidWrites := 0 }
  else
    match env.spawnPid with
    | none =>
      { result := Except.error StartError.spawnFailed, world := release_start_lock w ws,
        spawns := 1, portGateReached := true, lockReleases := 1, pidWrites := 0 }
    | some pid =>
      if env.pidWriteOk = false then
        { result := Except.error StartError.pidWriteFailed,
          world := release_start_lock { w with running := setGrace w.running pid true } ws,
          spawns := 1, portGateReached := true, lockReleases := 1, pidWrites := 1 }
      else if is_pid_running (setGrace w.running pid env.spawnSurvives) pid = false then
        { result := Except.error (StartError.immediateExit pid),
          world := release_start_lock
            { w with running := setGrace w.running pid env.spawnSurvives,
                     pidFiles := fsErase (fsInsert w.pidFiles ws
                       (PidDisk.json { pid := pid, started_by := "tauri", started_at := env.now })) ws,
                     managed := none } ws,
          spawns := 1, portGateReached := true, lockReleases := 1, pidWrites := 1 }
      else
        { result := Except.ok (build_service_status env w.heartbeats ws true (some pid) pf),
          world := release_start_lock
            { w with running := setGrace w.running pid env.spawnSurvives,
                     pidFiles := fsInsert w.pidFiles ws
                       (PidDisk.json { pid := pid, started_by := "tauri", started_at := env.now }),
                     managed := some { workspace_id := ws, pid := pid, started_at := env.now } } ws,
          spawns := 1, portGateReached := true, lockReleases := 1, pidWrites := 1 }

/-- Locked phase of `openakita_service_start`: scaffold the workspace, then
run the port gate (immediate bind check, else a bounded 10 s wait) and
continue to the spawn phase; the port-busy error names the offending
port. -/
def startLocked (env : Env) (w : World) (ws : String) (pf : String) : StartOutcome :=
  if env.scaffoldOk = false then
    { result := Except.error StartError.scaffoldFailed, world := release_start_lock w ws,
      spawns := 0, portGateReached := false, lockReleases := 1, pidWrites := 0 }
  else
    if check_port_available env ((env.apiPort ws).getD 18900) = true then
      startSpawn env w ws pf
    else if wait_for_port_free (env.portAvail ((env.apiPort ws).getD 18900)) 10000 = true then
      startSpawn env w ws pf
    else
      { result := Except.error (StartError.portBusy ((env.apiPort ws).getD 18900)),
        world := release_start_lock w ws,
        spawns := 0, portGateReached := true, lockReleases := 1, pidWrites := 0 }

/-- Lock acquisition step of `openakita_service_start`: fail fast with the
"start already in progress" error when the lock file exists. -/
def startAcquireLock (env : Env) (w : World) (ws : String) (pf : String) : StartOutcome :=
  if (try_acquire_start_lock w ws).1 = false then
    { result := Except.error StartError.startInProgress, world := (try_acquire_start_lock w ws).2,
      spawns := 0, portGateReached := false, lockReleases := 0, pidWrites := 0 }
  else startLocked env (try_acquire_start_lock w ws).2 ws pf

/-- PID-record check of `openakita_service_start` (step 1b): a valid record
is a no-op returning the running status unless the heartbeat is stale past
60 s (hung-process cleanup, then a fresh start); an invalid record is
cleaned up before starting. -/
def startFromPidCheck (env : Env) (w : World) (ws : String) (pf : String) : StartOutcome :=
  match read_pid_file (fsLookup w.pidFiles ws) with
  | some data =>
    if is_pid_file_valid env w.running data = true then
      match is_heartbeat_stale (fsLookup w.heartbeats ws) env.now 60 with
      | some true =>
          startAcquireLock env
            { w with running := (graceful_stop_pid env w.running data.pid).2,
                     pidFiles := fsErase w.pidFiles ws,
                     heartbeats := fsErase w.heartbeats ws } ws pf
      | _ =>
          { result := Except.ok (build_service_status env w.heartbeats ws true (some data.pid) pf),
            world := w, spawns := 0, portGateReached := false, lockReleases := 0, pidWrites := 0 }
    else
      startAcquireLock env
        { w with pidFiles := fsErase w.pidFiles ws, heartbeats := fsErase w.heartbeats ws } ws pf
  | none => startAcquireLock env w ws pf

/-- `openakita_service_start`: create the run dir, clear the prior
heartbeat (step 0), check the managed child then the PID record for an
already-running service (step 1), then acquire the start lock and proceed
through the port gate and spawn (steps 2+). -/
def openakita_service_start (env : Env) (w : World) (ws : String) : StartOutcome :=
  if env.runDirOk = true then
    match w.managed with
    | some mp =>
      if mp.workspace_id = ws then
        if is_pid_running w.running mp.pid then
          { result := Except.ok (build_service_status env (fsErase w.heartbeats ws) ws true
              (some mp.pid) (service_pid_file ws)),
            world := { w with heartbeats := fsErase w.heartbeats ws },
            spawns := 0, portGateReached := false, lockReleases := 0, pidWrites := 0 }
        else
          startFromPidCheck env { w with heartbeats := fsErase w.heartbeats ws, managed := none }
            ws (service_pid_file ws)
      else
        startFromPidCheck env { w with heartbeats := fsErase w.heartbeats ws }
          ws (service_pid_file ws)
    | none =>
        startFromPidCheck env { w with heartbeats := fsErase w.heartbeats ws }
          ws (service_pid_file ws)
  else
    { result := Except.error StartError.createRunDirFailed, world := w,
      spawns := 0, portGateReached := false, lockReleases := 0, pidWrites := 0 }

theorem startSpawn_releases (env : Env) (w : World) (ws : String) (pf : String) :
    (startSpawn env w ws pf).lockReleases = 1
      ∧ ¬ ws ∈ (startSpawn env w ws pf).world.locks := by
  unfold startSpawn
  split
  · exact ⟨rfl, release_start_lock_not_mem _ _⟩
  · split
    · exact ⟨rfl, release_start_lock_not_mem _ _⟩
    · split
      · exact ⟨rfl, release_start_lock_not_mem _ _⟩
      · split
        · exact ⟨rfl, release_start_lock_not_mem _ _⟩
        · split
          · exact ⟨rfl, release_start_lock_not_mem _ _⟩
          · exact ⟨rfl, release_start_lock_not_mem _ _⟩

theorem startLocked_releases (env : Env) (w : World) (ws : String) (pf : String) :
    (startLocked env w ws pf).lockReleases = 1
      ∧ ¬ ws ∈ (startLocked env w ws pf).world.locks := by
  unfold startLocked
  split
  · exact ⟨rfl, release_start_lock_not_mem _ _⟩
  · split
    · exact startSpawn_releases env w ws pf
    · split
      · exact startSpawn_releases env w ws pf
      · exact ⟨rfl, release_start_lock_not_mem _ _⟩

theorem try_acquire_start_lock_held (w : World) (ws : String) (h : ws ∈ w.locks) :
    try_acquire_start_lock w ws = (false, w) := by
  unfold try_acquire_start_lock
  rw [if_pos h]

theorem try_acquire_start_lock_free (w : World) (ws : String) (h : ¬ ws ∈ w.locks) :
    try_acquire_start_lock w ws = (true, { w with locks := ws :: w.locks }) := by
  unfold try_acquire_start_lock
  rw [if_neg h]

theorem startAcquireLock_held (env : Env) (w : World) (ws : String) (pf : String)
    (h : ws ∈ w.locks) :
    startAcquireLock env w ws pf
      = { result := Except.error StartError.startInProgress, world := w,
          spawns := 0, portGateReached := false, lockReleases := 0, pidWrites := 0 } := by
  unfold startAcquireLock
  rw [try_acquire_start_lock_held w ws h]
  rfl

theorem startAcquireLock_free (env : Env) (w : World) (ws : String) (pf : String)
    (h : ¬ ws ∈ w.locks) :
    startAcquireLock env w ws pf = startLocked env { w with locks := ws :: w.locks } ws pf := by
  unfold startAcquireLock
  rw [try_acquire_start_lock_free w ws h]
  rfl

theorem startFromPidCheck_invalid (env : Env) (w : World) (ws : String) (pf : String)
    (hr : ∀ data, read_pid_file (fsLookup w.pidFiles ws) = some data →
        is_pid_file_valid env w.running data = false) :
    ∃ w1 : World, startFromPidCheck env w ws pf = startAcquireLock env w1 ws pf
      ∧ w1.locks = w.locks := by
  unfold startFromPidCheck
  cases hread : read_pid_file (fsLookup w.pidFiles ws) with
  | none => exact ⟨w, rfl, rfl⟩
  | some data =>
      simp only [hr data hread, Bool.false_eq_true, if_false]
      exact ⟨_, rfl, rfl⟩

theorem start_reaches_acquire (env : Env) (w : World) (ws : String)
    (hrd : env.runDirOk = true)
    (hm : ∀ mp, w.managed = some mp → mp.workspace_id = ws →
        is_pid_running w.running mp.pid = false)
    (hr : ∀ data, read_pid_file (fsLookup w.pidFiles ws) = some data →
        is_pid_file_valid env w.running data = false) :
    ∃ w1 : World, openakita_service_start env w ws = startAcquireLock env w1 ws (service_pid_file ws)
      ∧ w1.locks = w.locks := by
  unfold openakita_service_start
  rw [if_pos hrd]
  cases hw : w.managed with
  | none => exact startFromPidCheck_invalid env _ ws _ (fun data hd => hr data hd)
  | some mp =>
      by_cases hid : mp.workspace_id = ws
      · simp only [hid, eq_self_iff_true, if_true, hm mp hw hid, Bool.false_eq_true, if_false]
        exact startFromPidCheck_invalid env _ ws _ (fun data hd => hr data hd)
      · simp only [hid, if_false]
        exact startFromPidCheck_invalid env _ ws _ (fun data hd => hr data hd)

/-- Claim C6: when the start lock file already exists, and the service is
not validly running (so the call reaches the lock step),
`openakita_service_start` fails fast with the "start already in progress"
error before any port check or spawn attempt and does not touch the lock;
and whenever the lock is acquired, it is released exactly once on every
exit path. -/
theorem start_lock_contention (env : Env) (w : World) (ws : String)
    (hrd : env.runDirOk = true)
    (hm : ∀ mp, w.managed = some mp → mp.workspace_id = ws →
        is_pid_running w.running mp.pid = false)
    (hr : ∀ data, read_pid_file (fsLookup w.pidFiles ws) = some data →
        is_pid_file_valid env w.running data = false) :
    (ws ∈ w.locks →
        (openakita_service_start env w ws).result = Except.error StartError.startInProgress
        ∧ (openakita_service_start env w ws).spawns = 0
        ∧ (openakita_service_start env w ws).portGateReached = false
        ∧ (openakita_service_start env w ws).lockReleases = 0
        ∧ ws ∈ (openakita_service_start env w ws).world.locks)
    ∧ (¬ ws ∈ w.locks →
        (openakita_service_start env w ws).lockReleases = 1
        ∧ ¬ ws ∈ (openakita_service_start env w ws).world.locks) := by
  obtain ⟨w1, heq, hlocks⟩ := start_reaches_acquire env w ws hrd hm hr
  rw [heq]
  constructor
  · intro hmem
    have hmem1 : ws ∈ w1.locks := by rw [hlocks]; exact hmem
    rw [startAcquireLock_held env w1 ws _ hmem1]
    exact ⟨rfl, rfl, rfl, rfl, hmem1⟩
  · intro hmem
    have hmem1 : ¬ ws ∈ w1.locks := fun hh => hmem (by rw [← hlocks]; exact hh)
    rw [startAcquireLock_free env w1 ws _ hmem1]
    exact startLocked_releases env _ ws _

/-- World for the `start_lock_contention` witness: no records, no managed
child, but the lock file for `w1` is present. -/
def wLockHeld : World :=
  { pidFiles := [], heartbeats := [], locks := ["w1"],
    running := fun _ => false, managed := none }

/-- Witness for `start_lock_contention`: with the lock held, start reports
the contention error without spawning. -/
theorem start_lock_contention_witness :
    (openakita_service_start envStopFail wLockHeld "w1").result
        = Except.error StartError.startInProgress
      ∧ (openakita_service_start envStopFail wLockHeld "w1").spawns = 0
      ∧ (openakita_service_start envStopFail wLockHeld "w1").portGateReached = false :=
  ⟨((start_lock_contention envStopFail wLockHeld "w1" rfl (fun mp h => nomatch h)
      (fun d hd => nomatch hd)).1 (by simp [wLockHeld])).1,
   ((start_lock_contention envStopFail wLockHeld "w1" rfl (fun mp h => nomatch h)
      (fun d hd => nomatch hd)).1 (by simp [wLockHeld])).2.1,
   ((start_lock_contention envStopFail wLockHeld "w1" rfl (fun mp h => nomatch h)
      (fun d hd => nomatch hd)).1 (by simp [wLockHeld])).2.2.1⟩

/-- Claim C8: when the configured port is occupied for the whole bounded
10 s wait, start fails with the port-busy error naming the offending port,
no process is spawned and no PID record write is attempted. -/
theorem start_port_busy (env : Env) (w : World) (ws : String)
    (hrd : env.runDirOk = true)
    (hm : ∀ mp, w.managed = some mp → mp.workspace_id = ws →
        is_pid_running w.running mp.pid = false)
    (hr : ∀ data, read_pid_file (fsLookup w.pidFiles ws) = some data →
        is_pid_file_valid env w.running data = false)
    (hlock : ¬ ws ∈ w.locks)
    (hsc : env.scaffoldOk = true)
    (hbusy : ∀ t, env.portAvail ((env.apiPort ws).getD 18900) t = false) :
    (openakita_service_start env w ws).result
        = Except.error (StartError.portBusy ((env.apiPort ws).getD 18900))
      ∧ (openakita_service_start env w ws).spawns = 0
      ∧ (openakita_service_start env w ws).pidWrites = 0
      ∧ (∃ a b : String,
          startErrorMessage (StartError.portBusy ((env.apiPort ws).getD 18900))
            = a ++ (toString ((env.apiPort ws).getD 18900) ++ b)) := by
  obtain ⟨w1, heq, hlocks⟩ := start_reaches_acquire env w ws hrd hm hr
  have hmem1 : ¬ ws ∈ w1.locks := fun hh => hlock (by rw [← hlocks]; exact hh)
  rw [heq, startAcquireLock_free env w1 ws _ hmem1]
  unfold startLocked
  rw [hsc]
  rw [if_neg (by simp)]
  have hchk : check_port_available env ((env.apiPort ws).getD 18900) = false := hbusy 0
  rw [hchk, if_neg (by simp)]
  have hwait : wait_for_port_free (env.portAvail ((env.apiPort ws).getD 18900)) 10000 = false :=
    waitPollLoop_always_busy _ 10000 hbusy _ 0
  rw [hwait, if_neg (by simp)]
  refine ⟨rfl, rfl, rfl, ?_⟩
  exact ⟨"端口 ",
    " 已被占用，无法启动后端服务。可能原因：上次关闭后端口尚未释放、或有其他程序占用该端口。请稍后重试，或检查是否有其他程序占用端口 " ++
      (toString ((env.apiPort ws).getD 18900) ++ "。"), rfl⟩

/-- Environment for the `start_port_busy` witness: the default port 18900
never frees. -/
def envPortBusy : Env :=
  { envStopFail with portAvail := fun _ _ => false }

/-- World for the `start_port_busy` witness: empty run directory. -/
def wEmpty : World :=
  { pidFiles := [], heartbeats := [], locks := [], running := fun _ => false, managed := none }

/-- Witness for `start_port_busy` at the default port 18900. -/
theorem start_port_busy_witness :
    (openakita_service_start envPortBusy wEmpty "w1").result
        = Except.error (StartError.portBusy 18900)
      ∧ (openakita_service_start envPortBusy wEmpty "w1").spawns = 0
      ∧ (openakita_service_start envPortBusy wEmpty "w1").pidWrites = 0 :=
  ⟨(start_port_busy envPortBusy wEmpty "w1" rfl (fun mp h => nomatch h)
      (fun d hd => nomatch hd) (by simp [wEmpty]) rfl (fun _ => rfl)).1,
   (start_port_busy envPortBusy wEmpty "w1" rfl (fun mp h => nomatch h)
      (fun d hd => nomatch hd) (by simp [wEmpty]) rfl (fun _ => rfl)).2.1,
   (start_port_busy envPortBusy wEmpty "w1" rfl (fun mp h => nomatch h)
      (fun d hd => nomatch hd) (by simp [wEmpty]) rfl (fun _ => rfl)).2.2.1⟩

theorem build_service_status_no_heartbeat (env : Env) (hbs : List (String × HbDisk))
    (ws : String) (b : Bool) (p : Option Nat) (pf : String)
    (h : fsLookup hbs ws = none) :
    build_service_status env hbs ws b p pf
      = { running := b, pid := p, pid_file := pf, heartbeat_phase := "",
          heartbeat_stale := none, heartbeat_age_secs := none } := by
  unfold build_service_status
  rw [h]
  rfl

theorem startFromPidCheck_valid_fresh (env : Env) (w : World) (ws : String) (pf : String)
    (data : PidFileData)
    (hread : read_pid_file (fsLookup w.pidFiles ws) = some data)
    (hv : is_pid_file_valid env w.running data = true)
    (hhb : fsLookup w.heartbeats ws = none) :
    startFromPidCheck env w ws pf
      = { result := Except.ok
            { running := true, pid := some data.pid, pid_file := pf,
              heartbeat_phase := "", heartbeat_stale := none, heartbeat_age_secs := none },
          world := w, spawns := 0, portGateReached := false, lockReleases := 0,
          pidWrites := 0 } := by
  unfold startFromPidCheck
  simp only [hread, hv, eq_self_iff_true, if_true, hhb, is_heartbeat_stale, read_heartbeat_file]
  rw [build_service_status_no_heartbeat env w.heartbeats ws true (some data.pid) pf hhb]

/-- Claim C1 (amended): when the service is already validly running — a
live managed child handle, or a PID record that passes validation —
`openakita_service_start` is a no-op returning a running status with the
service's pid and does not spawn, lock, stop or touch the run-directory
state; since step 0 deletes the heartbeat file before the 60 s staleness
check, the hung-process escalation branch is unreachable, and the returned
status carries no heartbeat staleness signal. -/
theorem start_noop_when_validly_running (env : Env) (w : World) (ws : String)
    (hrd : env.runDirOk = true)
    (h : (∃ mp, w.managed = some mp ∧ mp.workspace_id = ws
            ∧ is_pid_running w.running mp.pid = true)
       ∨ ((∀ mp, w.managed = some mp → mp.workspace_id ≠ ws)
          ∧ ∃ data, read_pid_file (fsLookup w.pidFiles ws) = some data
              ∧ is_pid_file_valid env w.running data = true)) :
    ∃ pid, (openakita_service_start env w ws).result
        = Except.ok { running := true, pid := some pid, pid_file := service_pid_file ws,
                      heartbeat_phase := "", heartbeat_stale := none,
                      heartbeat_age_secs := none }
      ∧ (openakita_service_start env w ws).spawns = 0
      ∧ (openakita_service_start env w ws).lockReleases = 0
      ∧ (openakita_service_start env w ws).world.pidFiles = w.pidFiles
      ∧ (openakita_service_start env w ws).world.locks = w.locks
      ∧ (openakita_service_start env w ws).world.running = w.running
      ∧ (openakita_service_start env w ws).world.managed = w.managed := by
  unfold openakita_service_start
  rw [if_pos hrd]
  rcases h with ⟨mp, hmp, hid, halive⟩ | ⟨hnm, data, hread, hv⟩
  · rw [hmp]
    dsimp only
    rw [if_pos hid, halive, if_pos rfl]
    refine ⟨mp.pid, ?_, rfl, rfl, rfl, rfl, rfl, rfl⟩
    dsimp only
    rw [build_service_status_no_heartbeat env (fsErase w.heartbeats ws) ws true (some mp.pid)
      (service_pid_file ws) (fsLookup_fsErase_self w.heartbeats ws)]
  · cases hw : w.managed with
    | none =>
        dsimp only
        rw [startFromPidCheck_valid_fresh env
          { w with heartbeats := fsErase w.heartbeats ws, managed := none } ws
          (service_pid_file ws) data hread hv (fsLookup_fsErase_self w.heartbeats ws)]
        exact ⟨data.pid, rfl, rfl, rfl, rfl, rfl, rfl, rfl⟩
    | some mp =>
        dsimp only
        rw [if_neg (hnm mp hw)]
        rw [startFromPidCheck_valid_fresh env
          { w with heartbeats := fsErase w.heartbeats ws, managed := some mp } ws
          (service_pid_file ws) data hread hv (fsLookup_fsErase_self w.heartbeats ws)]
        exact ⟨data.pid, rfl, rfl, rfl, rfl, rfl, rfl, rfl⟩

/-- World for the C1 counterexample and witness: a valid PID record for the
live pid 9 of workspace `w1`, whose heartbeat is 1000 s old (stale far past
the 60 s long threshold). -/
def wStaleRunning : World :=
  { pidFiles := [("w1", PidDisk.json { pid := 9, started_by := "tauri", started_at := 0 })],
    heartbeats := [("w1",
      HbDisk.json { pid := 9, timestamp := 0, phase := "running", http_ready := true })],
    locks := [], running := fun p => decide (p = 9), managed := none }

/-- Claim C1 counterexample: the heartbeat of `w1` is stale even at the
60 s threshold, the start call is indeed a running no-op without a spawn —
but the returned status reports no staleness signal at all
(`heartbeat_stale = none`), because start deletes the heartbeat file before
building the status, so staleness is not surfaced to the caller. -/
theorem start_stale_heartbeat_signal_counterexample :
    is_heartbeat_stale (fsLookup wStaleRunning.heartbeats "w1") envStopFail.now 60 = some true
      ∧ (openakita_service_start envStopFail wStaleRunning "w1").result
          = Except.ok { running := true, pid := some 9, pid_file := service_pid_file "w1",
                        heartbeat_phase := "", heartbeat_stale := none,
                        heartbeat_age_secs := none }
      ∧ (openakita_service_start envStopFail wStaleRunning "w1").spawns = 0 := by
  refine ⟨?_, rfl, rfl⟩
  show is_heartbeat_stale
      (some (HbDisk.json { pid := 9, timestamp := 0, phase := "running", http_ready := true }))
      1000 60 = some true
  simp only [is_heartbeat_stale, read_heartbeat_file, Option.some.injEq, decide_eq_true_eq]
  norm_num

/-- World for the managed-child case of the `start_noop_when_validly_running`
witness. -/
def wManagedAlive : World :=
  { pidFiles := [], heartbeats := [], locks := [],
    running := fun p => decide (p = 9),
    managed := some { workspace_id := "w1", pid := 9, started_at := 100 } }

/-- Witness for `start_noop_when_validly_running`: a live managed child. -/
theorem start_noop_when_validly_running_witness :
    ∃ pid, (openakita_service_start envStopFail wManagedAlive "w1").result
        = Except.ok { running := true, pid := some pid, pid_file := service_pid_file "w1",
                      heartbeat_phase := "", heartbeat_stale := none,
                      heartbeat_age_secs := none }
      ∧ (openakita_service_start envStopFail wManagedAlive "w1").spawns = 0
      ∧ (openakita_service_start envStopFail wManagedAlive "w1").lockReleases = 0
      ∧ (openakita_service_start envStopFail wManagedAlive "w1").world.pidFiles
          = wManagedAlive.pidFiles
      ∧ (openakita_service_start envStopFail wManagedAlive "w1").world.locks
          = wManagedAlive.locks
      ∧ (openakita_service_start envStopFail wManagedAlive "w1").world.running
          = wManagedAlive.running
      ∧ (openakita_service_start envStopFail wManagedAlive "w1").world.managed
          = wManagedAlive.managed :=
  start_noop_when_validly_running envStopFail wManagedAlive "w1" rfl
    (Or.inl ⟨{ workspace_id := "w1", pid := 9, started_at := 100 }, rfl, rfl, rfl⟩)

/-- `list_service_pids`: scan the run directory for `openakita-*.pid` files
whose content parses, pairing each workspace id with its parsed record. -/
def list_service_pids (w : World) : List (String × PidFileData) :=
  w.pidFiles.filterMap (fun e =>
    match read_pid_file (fsLookup w.pidFiles e.1) with
    | some data => some (e.1, data)
    | none => none)

/-- One record's reconciliation step: re-read the record; if it fails
validation, delete record and heartbeat; if it validates but the heartbeat
is stale past the 60 s long threshold, run the graceful-then-forced stop
sequence (result ignored) and delete record and heartbeat.  Also returns
the pids the stop sequence was applied to. -/
def reconcileEntry (env : Env) (w : World) (ws : String) : World × List Nat :=
  match read_pid_file (fsLookup w.pidFiles ws) with
  | some data =>
    if is_pid_file_valid env w.running data = true then
      match is_heartbeat_stale (fsLookup w.heartbeats ws) env.now 60 with
      | some true =>
          ({ w with running := (graceful_stop_pid env w.running data.pid).2,
                    pidFiles := fsErase w.pidFiles ws,
                    heartbeats := fsErase w.heartbeats ws }, [data.pid])
      | _ => (w, [])
    else
      ({ w with pidFiles := fsErase w.pidFiles ws, heartbeats := fsErase w.heartbeats ws }, [])
  | none => (w, [])

/-- The reconciliation pass over the scanned entries. -/
def reconcileLoop (env : Env) : List (String × PidFileData) → World → World × List Nat
  | [], w => (w, [])
  | e :: rest, w =>
      ((reconcileLoop env rest (reconcileEntry env w e.1).1).1,
       (reconcileEntry env w e.1).2 ++ (reconcileLoop env rest (reconcileEntry env w e.1).1).2)

/-- `startup_reconcile`: remove every `.lock` file in the run directory
unconditionally, then reconcile every PID record.  (When the run directory
does not exist there is nothing on disk, which this world model represents
as empty lists.) -/
def startup_reconcile (env : Env) (w : World) : World × List Nat :=
  reconcileLoop env (list_service_pids { w with locks := [] }) { w with locks := [] }

theorem fsLookup_fsErase_none {α : Type} (l : List (String × α)) (k k2 : String)
    (h : fsLookup l k2 = none) : fsLookup (fsErase l k) k2 = none := by
  by_cases he : k2 = k
  · rw [he, fsLookup_fsErase_self]
  · rw [fsLookup_fsErase_ne l k k2 he]
    exact h

theorem setDead_le (r : Nat → Bool) (pid p : Nat) (h : setDead r pid p = true) : r p = true := by
  unfold setDead at h
  by_cases hp : p = pid
  · rw [if_pos hp] at h; cases h
  · rw [if_neg hp] at h; exact h

theorem graceful_stop_pid_running_cases (env : Env) (r : Nat → Bool) (pid : Nat) :
    (graceful_stop_pid env r pid).2 = r ∨ (graceful_stop_pid env r pid).2 = setDead r pid := by
  unfold graceful_stop_pid
  split
  · exact Or.inl rfl
  · split
    · exact Or.inr rfl
    · split
      · exact Or.inl rfl
      · split
        · exact Or.inr rfl
        · exact Or.inl rfl

theorem graceful_stop_pid_running_le (env : Env) (r : Nat → Bool) (pid p : Nat)
    (h : (graceful_stop_pid env r pid).2 p = true) : r p = true := by
  rcases graceful_stop_pid_running_cases env r pid with hc | hc
  · rw [hc] at h; exact h
  · rw [hc] at h; exact setDead_le r pid p h

theorem graceful_stop_pid_running_other (env : Env) (r : Nat → Bool) (pid p : Nat)
    (hne : pid ≠ p) : (graceful_stop_pid env r pid).2 p = r p := by
  rcases graceful_stop_pid_running_cases env r pid with hc | hc
  · rw [hc]
  · rw [hc]
    unfold setDead
    rw [if_neg (fun hh => hne hh.symm)]

theorem is_pid_running_mono (r1 r2 : Nat → Bool) (pid : Nat)
    (h : ∀ p, r1 p = true → r2 p = true) (hr : is_pid_running r1 pid = true) :
    is_pid_running r2 pid = true := by
  unfold is_pid_running at hr ⊢
  by_cases h0 : pid = 0
  · rw [if_pos h0] at hr; cases hr
  · rw [if_neg h0] at hr ⊢
    exact h pid hr

theorem is_openakita_process_mono (env : Env) (r1 r2 : Nat → Bool) (pid : Nat)
    (h : ∀ p, r1 p = true → r2 p = true) (ho : is_openakita_process env r1 pid = true) :
    is_openakita_process env r2 pid = true := by
  unfold is_openakita_process at ho ⊢
  by_cases h0 : pid = 0
  · rw [if_pos h0] at ho; cases ho
  · rw [if_neg h0] at ho ⊢
    by_cases hr : is_pid_running r1 pid = true
    · rw [if_pos hr] at ho
      rw [if_pos (is_pid_running_mono r1 r2 pid h hr)]
      exact ho
    · rw [if_neg hr] at ho; cases ho

theorem is_pid_file_valid_mono (env : Env) (r1 r2 : Nat → Bool) (d : PidFileData)
    (h : ∀ p, r1 p = true → r2 p = true) (hv : is_pid_file_valid env r1 d = true) :
    is_pid_file_valid env r2 d = true := by
  unfold is_pid_file_valid at hv ⊢
  by_cases hr : is_pid_running r1 d.pid = true
  · have hr2 := is_pid_running_mono r1 r2 d.pid h hr
    simp only [hr, hr2, Bool.not_true, Bool.false_eq_true, if_false] at hv ⊢
    by_cases hz : d.started_at = 0
    · rw [if_pos hz] at hv ⊢
      exact is_openakita_process_mono env r1 r2 d.pid h hv
    · rw [if_neg hz] at hv ⊢
      cases hct : env.createTime d.pid with
      | none =>
          rw [hct] at hv
          exact is_openakita_process_mono env r1 r2 d.pid h hv
      | some actual =>
          rw [hct] at hv
          dsimp only at hv ⊢
          by_cases hgt : d.started_at > actual
          · rw [if_pos hgt] at hv ⊢
            by_cases h5 : d.started_at - actual > 5
            · rw [if_pos h5] at hv ⊢
              exact is_openakita_process_mono env r1 r2 d.pid h hv
            · rw [if_neg h5]
          · rw [if_neg hgt] at hv ⊢
            by_cases h5 : actual - d.started_at > 5
            · rw [if_pos h5] at hv ⊢
              exact is_openakita_process_mono env r1 r2 d.pid h hv
            · rw [if_neg h5]
  · rw [Bool.not_eq_true] at hr
    simp only [hr, Bool.not_false, if_true] at hv
    cases hv

theorem is_pid_file_valid_congr (env : Env) (r1 r2 : Nat → Bool) (d : PidFileData)
    (h : r1 d.pid = r2 d.pid) :
    is_pid_file_valid env r1 d = is_pid_file_valid env r2 d := by
  have hpr : is_pid_running r1 d.pid = is_pid_running r2 d.pid := by
    unfold is_pid_running
    rw [h]
  have hop : is_openakita_process env r1 d.pid = is_openakita_process env r2 d.pid := by
    unfold is_openakita_process is_pid_running
    rw [h]
  unfold is_pid_file_valid
  rw [hpr, hop]

theorem reconcileEntry_locks (env : Env) (w : World) (ws : String) :
    (reconcileEntry env w ws).1.locks = w.locks := by
  unfold reconcileEntry
  repeat' split
  all_goals rfl

theorem reconcileEntry_preserves_none_pid (env : Env) (w : World) (ws ws2 : String)
    (h : fsLookup w.pidFiles ws2 = none) :
    fsLookup (reconcileEntry env w ws).1.pidFiles ws2 = none := by
  unfold reconcileEntry
  repeat' split
  all_goals first
    | exact h
    | exact fsLookup_fsErase_none w.pidFiles ws ws2 h

theorem reconcileEntry_preserves_none_hb (env : Env) (w : World) (ws ws2 : String)
    (h : fsLookup w.heartbeats ws2 = none) :
    fsLookup (reconcileEntry env w ws).1.heartbeats ws2 = none := by
  unfold reconcileEntry
  repeat' split
  all_goals first
    | exact h
    | exact fsLookup_fsErase_none w.heartbeats ws ws2 h

theorem reconcileEntry_other_pid (env : Env) (w : World) (ws ws2 : String) (hne : ws2 ≠ ws) :
    fsLookup (reconcileEntry env w ws).1.pidFiles ws2 = fsLookup w.pidFiles ws2 := by
  unfold reconcileEntry
  repeat' split
  all_goals first
    | rfl
    | exact fsLookup_fsErase_ne w.pidFiles ws ws2 hne

theorem reconcileEntry_other_hb (env : Env) (w : World) (ws ws2 : String) (hne : ws2 ≠ ws) :
    fsLookup (reconcileEntry env w ws).1.heartbeats ws2 = fsLookup w.heartbeats ws2 := by
  unfold reconcileEntry
  repeat' split
  all_goals first
    | rfl
    | exact fsLookup_fsErase_ne w.heartbeats ws ws2 hne

theorem reconcileEntry_running_le (env : Env) (w : World) (ws : String) (p : Nat)
    (h : (reconcileEntry env w ws).1.running p = true) : w.running p = true := by
  unfold reconcileEntry at h
  split at h
  · split at h
    · split at h
      · exact graceful_stop_pid_running_le env w.running _ p h
      · exact h
    · exact h
  · exact h

theorem reconcileEntry_running_other (env : Env) (w : World) (ws : String) (p : Nat)
    (hno : ∀ data, read_pid_file (fsLookup w.pidFiles ws) = some data → data.pid ≠ p) :
    (reconcileEntry env w ws).1.running p = w.running p := by
  unfold reconcileEntry
  cases hrd : read_pid_file (fsLookup w.pidFiles ws) with
  | none => rfl
  | some data =>
      dsimp only
      split
      · split
        · exact graceful_stop_pid_running_other env w.running data.pid p (hno data hrd)
        · rfl
      · rfl

theorem reconcileLoop_locks (env : Env) :
    ∀ (es : List (String × PidFileData)) (w : World),
      (reconcileLoop env es w).1.locks = w.locks := by
  intro es
  induction es with
  | nil => intro w; rfl
  | cons e rest ih =>
      intro w
      show (reconcileLoop env rest (reconcileEntry env w e.1).1).1.locks = w.locks
      rw [ih (reconcileEntry env w e.1).1, reconcileEntry_locks]

theorem reconcileLoop_preserves_none_pid (env : Env) :
    ∀ (es : List (String × PidFileData)) (w : World) (ws2 : String),
      fsLookup w.pidFiles ws2 = none →
      fsLookup (reconcileLoop env es w).1.pidFiles ws2 = none := by
  intro es
  induction es with
  | nil => intro w ws2 h; exact h
  | cons e rest ih =>
      intro w ws2 h
      exact ih (reconcileEntry env w e.1).1 ws2
        (reconcileEntry_preserves_none_pid env w e.1 ws2 h)

theorem reconcileLoop_preserves_none_hb (env : Env) :
    ∀ (es : List (String × PidFileData)) (w : World) (ws2 : String),
      fsLookup w.heartbeats ws2 = none →
      fsLookup (reconcileLoop env es w).1.heartbeats ws2 = none := by
  intro es
  induction es with
  | nil => intro w ws2 h; exact h
  | cons e rest ih =>
      intro w ws2 h
      exact ih (reconcileEntry env w e.1).1 ws2
        (reconcileEntry_preserves_none_hb env w e.1 ws2 h)

theorem filterMap_keys_sublist {α β γ : Type} (key : α → γ) (key2 : β → γ)
    (f : α → Option β) (hf : ∀ a b, f a = some b → key2 b = key a) :
    ∀ l : List α, ((l.filterMap f).map key2).Sublist (l.map key) := by
  intro l
  induction l with
  | nil => exact List.Sublist.refl []
  | cons a l ih =>
      rw [List.filterMap_cons, List.map_cons]
      cases hfa : f a with
      | none => exact List.Sublist.cons (key a) ih
      | some b =>
          rw [List.map_cons, hf a b hfa]
          exact List.Sublist.cons₂ (key a) ih

theorem list_service_pids_keys_nodup (w : World)
    (h : (w.pidFiles.map Prod.fst).Nodup) :
    ((list_service_pids w).map Prod.fst).Nodup := by
  refine List.Nodup.sublist ?_ h
  exact filterMap_keys_sublist Prod.fst Prod.fst _
    (fun a b hab => by
      revert hab
      cases hr : read_pid_file (fsLookup w.pidFiles a.1) with
      | none =>
          intro hab
          simp only [hr] at hab
          exact Option.noConfusion hab
      | some d =>
          intro hab
          simp only [hr] at hab
          injection hab with hb
          rw [← hb]) w.pidFiles

theorem mem_list_service_pids (w : World) (ws : String) (data : PidFileData)
    (h : read_pid_file (fsLookup w.pidFiles ws) = some data) :
    (ws, data) ∈ list_service_pids w := by
  cases hl : fsLookup w.pidFiles ws with
  | none => rw [hl] at h; cases h
  | some disk =>
      have hmem := fsLookup_mem hl
      unfold list_service_pids
      refine List.mem_filterMap.mpr ⟨(ws, disk), hmem, ?_⟩
      dsimp only
      simp only [h]

theorem list_service_pids_read (w : World) :
    ∀ e ∈ list_service_pids w, read_pid_file (fsLookup w.pidFiles e.1) = some e.2 := by
  intro e he
  unfold list_service_pids at he
  obtain ⟨a, _, hfa⟩ := List.mem_filterMap.mp he
  cases hrd : read_pid_file (fsLookup w.pidFiles a.1) with
  | none => rw [hrd] at hfa; cases hfa
  | some d =>
      simp only [hrd] at hfa
      have hae : (a.1, d) = e := by injection hfa
      rw [← hae]
      dsimp only
      exact hrd

theorem reconcileLoop_invalid (env : Env) :
    ∀ (es : List (String × PidFileData)) (w : World) (ws : String) (data : PidFileData),
      (es.map Prod.fst).Nodup →
      (∀ e ∈ es, read_pid_file (fsLookup w.pidFiles e.1) = some e.2) →
      (ws, data) ∈ es →
      is_pid_file_valid env w.running data = false →
      fsLookup (reconcileLoop env es w).1.pidFiles ws = none
      ∧ fsLookup (reconcileLoop env es w).1.heartbeats ws = none := by
  intro es
  induction es with
  | nil => intro w ws data _ _ hmem; cases hmem
  | cons e rest ih =>
      intro w ws data hnd hinv hmem hv
      rcases List.mem_cons.mp hmem with heq | hmem2
      · obtain ⟨he1, he2⟩ : e.1 = ws ∧ e.2 = data := by
          rw [← heq]
          exact ⟨rfl, rfl⟩
        have hread := hinv e (List.mem_cons_self e rest)
        have hentry_pid : fsLookup (reconcileEntry env w e.1).1.pidFiles ws = none := by
          unfold reconcileEntry
          simp only [hread, he2, hv, Bool.false_eq_true, if_false]
          rw [he1, fsLookup_fsErase_self]
        have hentry_hb : fsLookup (reconcileEntry env w e.1).1.heartbeats ws = none := by
          unfold reconcileEntry
          simp only [hread, he2, hv, Bool.false_eq_true, if_false]
          rw [he1, fsLookup_fsErase_self]
        exact ⟨reconcileLoop_preserves_none_pid env rest _ ws hentry_pid,
               reconcileLoop_preserves_none_hb env rest _ ws hentry_hb⟩
      · have hkey : ws ≠ e.1 := by
          intro hk
          have h1 : e.1 ∈ rest.map Prod.fst := by
            rw [← hk]
            exact List.mem_map.mpr ⟨(ws, data), hmem2, rfl⟩
          exact (List.nodup_cons.mp (by simpa using hnd)).1 h1
        have hinv2 : ∀ e2 ∈ rest,
            read_pid_file (fsLookup (reconcileEntry env w e.1).1.pidFiles e2.1) = some e2.2 := by
          intro e2 he2
          have hne : e2.1 ≠ e.1 := by
            intro hk
            have h1 : e.1 ∈ rest.map Prod.fst := by
              rw [← hk]
              exact List.mem_map.mpr ⟨e2, he2, rfl⟩
            exact (List.nodup_cons.mp (by simpa using hnd)).1 h1
          rw [reconcileEntry_other_pid env w e.1 e2.1 hne]
          exact hinv e2 (List.mem_cons_of_mem e he2)
        have hv2 : is_pid_file_valid env (reconcileEntry env w e.1).1.running data = false := by
          by_contra hc
          rw [Bool.not_eq_false] at hc
          have hmono := is_pid_file_valid_mono env (reconcileEntry env w e.1).1.running
            w.running data (fun p hp => reconcileEntry_running_le env w e.1 p hp) hc
          rw [hv] at hmono
          cases hmono
        exact ih (reconcileEntry env w e.1).1 ws data
          (by simpa using (List.nodup_cons.mp (by simpa using hnd)).2) hinv2 hmem2 hv2

theorem reconcileLoop_stale (env : Env) :
    ∀ (es : List (String × PidFileData)) (w : World) (ws : String) (data : PidFileData),
      (es.map Prod.fst).Nodup →
      List.Pairwise (fun a b => a.2.pid ≠ b.2.pid) es →
      (∀ e ∈ es, read_pid_file (fsLookup w.pidFiles e.1) = some e.2) →
      (ws, data) ∈ es →
      is_pid_file_valid env w.running data = true →
      is_heartbeat_stale (fsLookup w.heartbeats ws) env.now 60 = some true →
      data.pid ∈ (reconcileLoop env es w).2
      ∧ fsLookup (reconcileLoop env es w).1.pidFiles ws = none
      ∧ fsLookup (reconcileLoop env es w).1.heartbeats ws = none := by
  intro es
  induction es with
  | nil => intro w ws data _ _ _ hmem; cases hmem
  | cons e rest ih =>
      intro w ws data hnd hpw hinv hmem hv hstale
      rcases List.mem_cons.mp hmem with heq | hmem2
      · obtain ⟨ek, ed⟩ := e
        cases heq
        have hread := hinv (ws, data) (List.mem_cons_self _ _)
        dsimp only at hread
        have hentry : reconcileEntry env w ws
            = ({ w with running := (graceful_stop_pid env w.running data.pid).2,
                        pidFiles := fsErase w.pidFiles ws,
                        heartbeats := fsErase w.heartbeats ws }, [data.pid]) := by
          unfold reconcileEntry
          simp only [hread, hv, eq_self_iff_true, if_true, hstale]
        refine ⟨?_, ?_, ?_⟩
        · show data.pid ∈ (reconcileEntry env w ws).2
            ++ (reconcileLoop env rest (reconcileEntry env w ws).1).2
          rw [hentry]
          exact List.mem_append_left _ (List.mem_singleton.mpr rfl)
        · show fsLookup (reconcileLoop env rest (reconcileEntry env w ws).1).1.pidFiles ws = none
          refine reconcileLoop_preserves_none_pid env rest _ ws ?_
          rw [hentry]
          exact fsLookup_fsErase_self w.pidFiles ws
        · show fsLookup (reconcileLoop env rest (reconcileEntry env w ws).1).1.heartbeats ws
            = none
          refine reconcileLoop_preserves_none_hb env rest _ ws ?_
          rw [hentry]
          exact fsLookup_fsErase_self w.heartbeats ws
      · have hkey : ws ≠ e.1 := by
          intro hk
          have h1 : e.1 ∈ rest.map Prod.fst := by
            rw [← hk]
            exact List.mem_map.mpr ⟨(ws, data), hmem2, rfl⟩
          exact (List.nodup_cons.mp (by simpa using hnd)).1 h1
        have hinv2 : ∀ e2 ∈ rest,
            read_pid_file (fsLookup (reconcileEntry env w e.1).1.pidFiles e2.1) = some e2.2 := by
          intro e2 he2
          have hne : e2.1 ≠ e.1 := by
            intro hk
            have h1 : e.1 ∈ rest.map Prod.fst := by
              rw [← hk]
              exact List.mem_map.mpr ⟨e2, he2, rfl⟩
            exact (List.nodup_cons.mp (by simpa using hnd)).1 h1
          rw [reconcileEntry_other_pid env w e.1 e2.1 hne]
          exact hinv e2 (List.mem_cons_of_mem e he2)
        have hpid_ne : ∀ d, read_pid_file (fsLookup w.pidFiles e.1) = some d →
            d.pid ≠ data.pid := by
          intro d hd
          have hread := hinv e (List.mem_cons_self e rest)
          rw [hread] at hd
          injection hd with hd2
          rw [← hd2]
          exact (List.pairwise_cons.mp hpw).1 (ws, data) hmem2
        have hrun : (reconcileEntry env w e.1).1.running data.pid = w.running data.pid :=
          reconcileEntry_running_other env w e.1 data.pid hpid_ne
        have hv2 : is_pid_file_valid env (reconcileEntry env w e.1).1.running data = true := by
          rw [is_pid_file_valid_congr env (reconcileEntry env w e.1).1.running w.running data hrun]
          exact hv
        have hstale2 : is_heartbeat_stale
            (fsLookup (reconcileEntry env w e.1).1.heartbeats ws) env.now 60 = some true := by
          rw [reconcileEntry_other_hb env w e.1 ws hkey]
          exact hstale
        have hres := ih (reconcileEntry env w e.1).1 ws data
          (by simpa using (List.nodup_cons.mp (by simpa using hnd)).2)
          (List.pairwise_cons.mp hpw).2 hinv2 hmem2 hv2 hstale2
        refine ⟨?_, hres.2.1, hres.2.2⟩
        show data.pid ∈ (reconcileEntry env w e.1).2 ++ _
        exact List.mem_append_right _ hres.1

/-- Claim C5: after `startup_reconcile`, no `.lock` files remain; every
record that parses but fails validation is deleted together with its
heartbeat; and every record that validates but whose heartbeat is stale
past the 60 s long threshold has the graceful-then-forced stop sequence
applied to its pid before record and heartbeat are deleted.  (Records are
keyed by workspace; the hypotheses say the run directory holds one file
per workspace and the scanned records name pairwise distinct pids.) -/
theorem startup_reconcile_cleanup (env : Env) (w : World)
    (hnd : (w.pidFiles.map Prod.fst).Nodup)
    (hpw : List.Pairwise (fun a b => a.2.pid ≠ b.2.pid)
      (list_service_pids { w with locks := [] })) :
    (startup_reconcile env w).1.locks = []
    ∧ (∀ ws data, read_pid_file (fsLookup w.pidFiles ws) = some data →
        is_pid_file_valid env w.running data = false →
        fsLookup (startup_reconcile env w).1.pidFiles ws = none
        ∧ fsLookup (startup_reconcile env w).1.heartbeats ws = none)
    ∧ (∀ ws data, read_pid_file (fsLookup w.pidFiles ws) = some data →
        is_pid_file_valid env w.running data = true →
        is_heartbeat_stale (fsLookup w.heartbeats ws) env.now 60 = some true →
        data.pid ∈ (startup_reconcile env w).2
        ∧ fsLookup (startup_reconcile env w).1.pidFiles ws = none
        ∧ fsLookup (startup_reconcile env w).1.heartbeats ws = none) := by
  refine ⟨?_, ?_, ?_⟩
  · unfold startup_reconcile
    rw [reconcileLoop_locks]
  · intro ws data hread hv
    exact reconcileLoop_invalid env (list_service_pids { w with locks := [] })
      { w with locks := [] } ws data
      (list_service_pids_keys_nodup { w with locks := [] } hnd)
      (list_service_pids_read { w with locks := [] })
      (mem_list_service_pids { w with locks := [] } ws data hread) hv
  · intro ws data hread hv hstale
    exact reconcileLoop_stale env (list_service_pids { w with locks := [] })
      { w with locks := [] } ws data
      (list_service_pids_keys_nodup { w with locks := [] } hnd)
      hpw
      (list_service_pids_read { w with locks := [] })
      (mem_list_service_pids { w with locks := [] } ws data hread) hv hstale

/-- World for the `startup_reconcile_cleanup` witness: a leftover lock file
and a record pointing at the dead pid 5, with a leftover heartbeat. -/
def wReconcile : World :=
  { pidFiles := [("w1", PidDisk.json { pid := 5, started_by := "tauri", started_at := 10 })],
    heartbeats := [("w1",
      HbDisk.json { pid := 5, timestamp := 0, phase := "running", http_ready := true })],
    locks := ["w1"], running := fun _ => false, managed := none }

/-- Witness for `startup_reconcile_cleanup`: the lock and the dead record
and its heartbeat are all gone. -/
theorem startup_reconcile_cleanup_witness :
    (startup_reconcile envStopFail wReconcile).1.locks = []
      ∧ fsLookup (startup_reconcile envStopFail wReconcile).1.pidFiles "w1" = none
      ∧ fsLookup (startup_reconcile envStopFail wReconcile).1.heartbeats "w1" = none :=
  ⟨(startup_reconcile_cleanup envStopFail wReconcile (List.nodup_singleton "w1")
      (List.pairwise_cons.mpr ⟨(fun b hb => nomatch hb), List.Pairwise.nil⟩)).1,
   ((startup_reconcile_cleanup envStopFail wReconcile (List.nodup_singleton "w1")
      (List.pairwise_cons.mpr ⟨(fun b hb => nomatch hb), List.Pairwise.nil⟩)).2.1
      "w1" { pid := 5, started_by := "tauri", started_at := 10 } rfl rfl).1,
   ((startup_reconcile_cleanup envStopFail wReconcile (List.nodup_singleton "w1")
      (List.pairwise_cons.mpr ⟨(fun b hb => nomatch hb), List.Pairwise.nil⟩)).2.1
      "w1" { pid := 5, started_by := "tauri", started_at := 10 } rfl rfl).2⟩

end OpenAkita
